import Mathlib

/-!
Verification of the numerical core of `functions/utils.py` from the
snow-cover-mapping-application repository.

Rasters are modelled as flat lists of cells (`xr` arrays are compared and
counted cell-wise after `ravel()`), a missing cell (`NaN`) being `none`.
Real numbers are modelled by `ℚ`; float `NaN` propagation through the
division `area / total_area` is modelled by `Option ℚ` (`none` = NaN),
and `np.nanpercentile`, which raises `ValueError` on a NaN or out-of-range
percentile argument, returns `Except String ℚ`.
-/

/-- Cell of a raster: `none` models a NaN / no-data cell. -/
abbrev Cell := Option ℚ

/-- Comparison `dem > sla` on one cell, with numpy semantics: a NaN cell
compares as `False`. -/
def cellGT (d : Cell) (sla : ℚ) : Bool :=
  match d with
  | none => false
  | some e => decide (sla < e)

/-- Comparison `dem < sla` on one cell, with numpy semantics: a NaN cell
compares as `False`. -/
def cellLT (d : Cell) (sla : ℚ) : Bool :=
  match d with
  | none => false
  | some v => decide (v < sla)

/-- Comparison `mask == c` on one cell, with numpy semantics: a NaN cell
compares as `False`. -/
def cellEQ (m : Cell) (c : ℚ) : Bool :=
  match m with
  | none => false
  | some v => decide (v = c)

/-- Float division modelled on `ℚ`: dividing by zero gives NaN (`none`).
In `calculate_sla_bounds` the numerator is zero whenever the denominator
is, so the `0/0 = NaN` case is the only division-by-zero that occurs. -/
def fdiv (a b : ℚ) : Option ℚ :=
  if b = 0 then none else some (a / b)

/-- Model of `np.clip(x, 0, 1)` on one value. -/
def clip01 (x : ℚ) : ℚ := min (max x 0) 1

/-- Valid (non-NaN) samples of a raster, in raster order
(`dem.data.ravel()` with NaNs dropped). -/
def validCells (dem : List Cell) : List ℚ := dem.filterMap id

/-- Valid samples sorted ascending, as used by the percentile routine. -/
def sortedValid (dem : List Cell) : List ℚ :=
  (validCells dem).insertionSort (· ≤ ·)

/-- Linear-interpolation percentile of an ascending list of samples at a
percentage `q ∈ [0,100]` — the numpy default `linear` interpolation between
order statistics. -/
def percentileSorted (vs : List ℚ) (q : ℚ) : ℚ :=
  let p : ℚ := q / 100 * ((vs.length : ℚ) - 1)
  let i : ℕ := (⌊p⌋).toNat
  let lo := vs.getD i 0
  let hi := vs.getD (i + 1) lo
  lo + (p - ⌊p⌋) * (hi - lo)

/-- Model of `np.nanpercentile(data, q)`: raises `ValueError` when the
percentile argument is NaN (`none`) or outside `[0, 100]`, otherwise takes
the linear-interpolation percentile of the non-NaN samples.  (numpy returns
NaN with a warning on an all-NaN slice; that branch is unreachable from
`calculate_sla_bounds`, which only reaches a numeric percentile when the
raster has at least one valid cell.) -/
def nanpercentile (dem : List Cell) (q : Option ℚ) : Except String ℚ :=
  match q with
  | none => .error "ValueError: Percentiles must be in the range [0, 100]"
  | some q =>
    if q < 0 ∨ 100 < q then
      .error "ValueError: Percentiles must be in the range [0, 100]"
    else
      match sortedValid dem with
      | [] => .error "RuntimeWarning: All-NaN slice encountered"
      | v :: vs => .ok (percentileSorted (v :: vs) q)

/-- model of `sla_percentile = 1 - aar` (line 109 of `utils.py`). -/
def sla_percentile (aar : ℚ) : ℚ := 1 - aar

/-- model of `npx = len(np.argwhere(~np.isnan(dem.data.ravel())).ravel())`:
number of non-NaN elevation cells (line 112). -/
def npx (dem : List Cell) : ℕ := (validCells dem).length

/-- model of `total_area = npx * dx**2` (line 113). -/
def total_area (dem : List Cell) (dx : ℚ) : ℚ := npx dem * dx ^ 2

/-- the 0/1 grid `xr.where((dem > sla) & (snow_cover_mask == 0), 1, 0)`
(line 116), flattened. -/
def snow_free_above_sla (sla : ℚ) (dem mask : List Cell) : List ℕ :=
  (dem.zip mask).map (fun dm => if cellGT dm.1 sla && cellEQ dm.2 0 then 1 else 0)

/-- model of `snow_free_above_sla_area` (line 117): count of 1-cells times `dx²`. -/
def snow_free_above_sla_area (sla : ℚ) (dem mask : List Cell) (dx : ℚ) : ℚ :=
  ((snow_free_above_sla sla dem mask).count 1 : ℚ) * dx ^ 2

/-- the 0/1 grid `xr.where((dem < sla) & (snow_cover_mask == 1), 1, 0)`
(line 118), flattened. -/
def snow_covered_below_sla (sla : ℚ) (dem mask : List Cell) : List ℕ :=
  (dem.zip mask).map (fun dm => if cellLT dm.1 sla && cellEQ dm.2 1 then 1 else 0)

/-- model of `snow_covered_below_sla_area` (line 119): count of 1-cells times `dx²`. -/
def snow_covered_below_sla_area (sla : ℚ) (dem mask : List Cell) (dx : ℚ) : ℚ :=
  ((snow_covered_below_sla sla dem mask).count 1 : ℚ) * dx ^ 2

/-- model of `delta_up = snow_free_above_sla_area / total_area` (line 122); NaN
(`none`) when the total valid area is zero. -/
def delta_up (sla : ℚ) (dem mask : List Cell) (dx : ℚ) : Option ℚ :=
  fdiv (snow_free_above_sla_area sla dem mask dx) (total_area dem dx)

/-- model of `delta_down = snow_covered_below_sla_area / total_area` (line 123). -/
def delta_down (sla : ℚ) (dem mask : List Cell) (dx : ℚ) : Option ℚ :=
  fdiv (snow_covered_below_sla_area sla dem mask dx) (total_area dem dx)

/-- model of `upper_sla_percentile = clip(sla_percentile + delta_up, 0, 1)`
(lines 126 and 129), NaN-propagating. -/
def upper_sla_percentile (aar sla : ℚ) (dem mask : List Cell) (dx : ℚ) : Option ℚ :=
  (delta_up sla dem mask dx).map (fun du => clip01 (sla_percentile aar + du))

/-- model of `lower_sla_percentile = clip(sla_percentile - delta_down, 0, 1)`
(lines 127 and 129), NaN-propagating. -/
def lower_sla_percentile (aar sla : ℚ) (dem mask : List Cell) (dx : ℚ) : Option ℚ :=
  (delta_down sla dem mask dx).map (fun dd => clip01 (sla_percentile aar - dd))

/-- Model of `calculate_sla_bounds` (lines 79–148 of `utils.py`).  The
scalars `aar` and `sla` are the `AAR` and `ELA_from_AAR_m` columns of `stats_df`; the function returns
`(sla, sla_upper_bound, sla_lower_bound)` in that order, or the error the
first failing `np.nanpercentile` call raises. -/
def calculate_sla_bounds (aar sla : ℚ) (dem mask : List Cell) (dx : ℚ) :
    Except String (ℚ × ℚ × ℚ) := do
  let ub ← nanpercentile dem ((upper_sla_percentile aar sla dem mask dx).map (· * 100))
  let lb ← nanpercentile dem ((lower_sla_percentile aar sla dem mask dx).map (· * 100))
  return (sla, ub, lb)

/-! Analysis of the linear-interpolation percentile. -/

/-- Decomposition of `percentileSorted` into an index `i` and a fractional
part `f` with `i + f` equal to the interpolation position. -/
theorem percentileSorted_cases (vs : List ℚ) (h0 : vs ≠ []) (q : ℚ)
    (hq0 : 0 ≤ q) (hq1 : q ≤ 100) :
    ∃ (i : ℕ) (f : ℚ), i < vs.length ∧ 0 ≤ f ∧ f < 1 ∧
      (i : ℚ) + f = q / 100 * ((vs.length : ℚ) - 1) ∧
      percentileSorted vs q =
        vs.getD i 0 + f * (vs.getD (i + 1) (vs.getD i 0) - vs.getD i 0) := by
  set p : ℚ := q / 100 * ((vs.length : ℚ) - 1) with hp
  have hn : 1 ≤ vs.length := List.length_pos.mpr h0
  have hn1 : (1 : ℚ) ≤ (vs.length : ℚ) := by exact_mod_cast hn
  have hp0 : 0 ≤ p := mul_nonneg (div_nonneg hq0 (by norm_num)) (by linarith)
  have hpn : p ≤ (vs.length : ℚ) - 1 := by
    have h100 : q / 100 ≤ 1 := (div_le_one (by norm_num)).mpr hq1
    exact mul_le_of_le_one_left (by linarith) h100
  have hfl0 : 0 ≤ ⌊p⌋ := Int.floor_nonneg.mpr hp0
  have hfln : ⌊p⌋ ≤ (vs.length : ℤ) - 1 := by
    have h := Int.floor_le_floor hpn
    rwa [show ((vs.length : ℚ) - 1) = (((vs.length : ℤ) - 1 : ℤ) : ℚ) by push_cast; ring,
      Int.floor_intCast] at h
  refine ⟨(⌊p⌋).toNat, Int.fract p, ?_, Int.fract_nonneg p, Int.fract_lt_one p, ?_, ?_⟩
  · have h1 : ((⌊p⌋).toNat : ℤ) ≤ (vs.length : ℤ) - 1 := by
      rw [Int.toNat_of_nonneg hfl0]; exact hfln
    omega
  · rw [Int.fract]
    have hc : (((⌊p⌋).toNat : ℕ) : ℚ) = ((⌊p⌋ : ℤ) : ℚ) := by
      exact_mod_cast congrArg (fun z : ℤ => (z : ℚ)) (Int.toNat_of_nonneg hfl0)
    rw [hc]; ring
  · rfl

/-- The lower interpolation node is at most the upper one on a sorted list. -/
theorem lo_le_hi (vs : List ℚ) (hs : vs.Sorted (· ≤ ·)) {i : ℕ} (hi : i < vs.length) :
    vs.getD i 0 ≤ vs.getD (i + 1) (vs.getD i 0) := by
  by_cases hc : i + 1 < vs.length
  · rw [List.getD_eq_getElem vs 0 hi, List.getD_eq_getElem vs _ hc]
    exact hs.rel_get_of_le (a := ⟨i, hi⟩) (b := ⟨i + 1, hc⟩) (by simp)
  · rw [List.getD_eq_default vs (vs.getD i 0) (show vs.length ≤ i + 1 by omega)]

/-- getD-monotonicity of sorted lists. -/
theorem sorted_getD_le (vs : List ℚ) (hs : vs.Sorted (· ≤ ·)) {i j : ℕ}
    (hij : i ≤ j) (hj : j < vs.length) : vs.getD i 0 ≤ vs.getD j 0 := by
  have hi : i < vs.length := lt_of_le_of_lt (Nat.lt_succ_of_le hij |> Nat.le_of_lt_succ) hj
  rw [List.getD_eq_getElem vs 0 hi, List.getD_eq_getElem vs 0 hj]
  exact hs.rel_get_of_le (a := ⟨i, hi⟩) (b := ⟨j, hj⟩) (by simpa using hij)

/-- the percentile lies between the first and the last element of the sorted
sample list. -/
theorem percentileSorted_bounds (vs : List ℚ) (hs : vs.Sorted (· ≤ ·)) (h0 : vs ≠ [])
    (q : ℚ) (hq0 : 0 ≤ q) (hq1 : q ≤ 100) :
    vs.getD 0 0 ≤ percentileSorted vs q ∧
      percentileSorted vs q ≤ vs.getD (vs.length - 1) 0 := by
  obtain ⟨i, f, hilt, hf0, hf1, hif, heq⟩ := percentileSorted_cases vs h0 q hq0 hq1
  have hlohi : vs.getD i 0 ≤ vs.getD (i + 1) (vs.getD i 0) := lo_le_hi vs hs hilt
  constructor
  · have h1 : vs.getD i 0 ≤ vs.getD i 0 + f * (vs.getD (i + 1) (vs.getD i 0) - vs.getD i 0) :=
      le_add_of_nonneg_right (mul_nonneg hf0 (by linarith))
    have h2 : vs.getD 0 0 ≤ vs.getD i 0 := sorted_getD_le vs hs (Nat.zero_le i) hilt
    rw [heq]; linarith
  · have h1 : f * (vs.getD (i + 1) (vs.getD i 0) - vs.getD i 0) ≤
        1 * (vs.getD (i + 1) (vs.getD i 0) - vs.getD i 0) :=
      mul_le_mul_of_nonneg_right (le_of_lt hf1) (by linarith)
    have h2 : vs.getD (i + 1) (vs.getD i 0) ≤ vs.getD (vs.length - 1) 0 := by
      by_cases hc : i + 1 < vs.length
      · rw [List.getD_eq_getElem vs _ hc]
        have h3 := sorted_getD_le vs hs (i := i + 1) (j := vs.length - 1) (by omega) (by omega)
        rwa [List.getD_eq_getElem vs 0 hc] at h3
      · rw [List.getD_eq_default vs _ (by omega)]
        exact sorted_getD_le vs hs (by omega) (by omega)
    rw [heq]; linarith

/-- the linear-interpolation percentile is monotone in the percentage. -/
theorem percentileSorted_mono (vs : List ℚ) (hs : vs.Sorted (· ≤ ·)) (h0 : vs ≠ [])
    {q1 q2 : ℚ} (hq0 : 0 ≤ q1) (h12 : q1 ≤ q2) (hq2 : q2 ≤ 100) :
    percentileSorted vs q1 ≤ percentileSorted vs q2 := by
  obtain ⟨i1, f1, hi1, hf10, hf11, hif1, heq1⟩ :=
    percentileSorted_cases vs h0 q1 hq0 (le_trans h12 hq2)
  obtain ⟨i2, f2, hi2, hf20, hf21, hif2, heq2⟩ :=
    percentileSorted_cases vs h0 q2 (le_trans hq0 h12) hq2
  have hn1 : (1 : ℚ) ≤ (vs.length : ℚ) := by
    exact_mod_cast List.length_pos.mpr h0
  have hp12 : (i1 : ℚ) + f1 ≤ (i2 : ℚ) + f2 := by
    rw [hif1, hif2]
    exact mul_le_mul_of_nonneg_right
      (div_le_div_of_nonneg_right h12 (by norm_num)) (by linarith)
  have hii : i1 ≤ i2 := by
    by_contra hc
    push_neg at hc
    have hcast : ((i2 : ℚ)) + 1 ≤ (i1 : ℚ) := by exact_mod_cast hc
    linarith
  rcases Nat.eq_or_lt_of_le hii with he | hlt
  · subst he
    have hff : f1 ≤ f2 := by
      have : (i1 : ℚ) + f1 ≤ (i1 : ℚ) + f2 := hp12
      linarith
    have hlohi : vs.getD i1 0 ≤ vs.getD (i1 + 1) (vs.getD i1 0) := lo_le_hi vs hs hi1
    rw [heq1, heq2]
    have := mul_le_mul_of_nonneg_right hff
      (sub_nonneg.mpr hlohi)
    linarith
  · have hrange : i1 + 1 < vs.length := lt_of_le_of_lt hlt hi2
    have hlohi1 : vs.getD i1 0 ≤ vs.getD (i1 + 1) (vs.getD i1 0) := lo_le_hi vs hs hi1
    have h1 : percentileSorted vs q1 ≤ vs.getD (i1 + 1) (vs.getD i1 0) := by
      have := mul_le_mul_of_nonneg_right (le_of_lt hf11) (sub_nonneg.mpr hlohi1)
      rw [heq1]; linarith
    have hmid : vs.getD (i1 + 1) (vs.getD i1 0) ≤ vs.getD i2 0 := by
      rw [List.getD_eq_getElem vs _ hrange]
      have h3 := sorted_getD_le vs hs (i := i1 + 1) (j := i2) hlt hi2
      rwa [List.getD_eq_getElem vs 0 hrange] at h3
    have h2 : vs.getD i2 0 ≤ percentileSorted vs q2 := by
      have hlohi2 : vs.getD i2 0 ≤ vs.getD (i2 + 1) (vs.getD i2 0) := lo_le_hi vs hs hi2
      have := mul_nonneg hf20 (sub_nonneg.mpr hlohi2)
      rw [heq2]; linarith
    linarith

/-- at `q = 100` the percentile is exactly the last (largest) sorted sample. -/
theorem percentileSorted_hundred (vs : List ℚ) (h0 : vs ≠ []) :
    percentileSorted vs 100 = vs.getD (vs.length - 1) 0 := by
  obtain ⟨i, f, hilt, hf0, hf1, hif, heq⟩ :=
    percentileSorted_cases vs h0 100 (by norm_num) (by norm_num)
  have hn : 1 ≤ vs.length := List.length_pos.mpr h0
  have hif' : (i : ℚ) + f = (vs.length : ℚ) - 1 := by rw [hif]; ring
  have h1 : ((vs.length : ℚ) - 1) - 1 < (i : ℚ) := by linarith
  have h2 : (i : ℚ) ≤ (vs.length : ℚ) - 1 := by linarith
  have hieq : i = vs.length - 1 := by
    have ha : ((vs.length : ℤ) - 1) - 1 < (i : ℤ) := by exact_mod_cast h1
    have hb : (i : ℤ) ≤ (vs.length : ℤ) - 1 := by exact_mod_cast h2
    omega
  have hfeq : f = 0 := by
    have hc : ((vs.length - 1 : ℕ) : ℚ) = (vs.length : ℚ) - 1 := by
      push_cast [Nat.cast_sub hn]; ring
    rw [hieq, hc] at hif'
    linarith
  rw [heq, hieq, hfeq]; ring

/-- a successful run of `np.nanpercentile` on a raster with at least one
valid cell and an in-range percentile. -/
theorem nanpercentile_ok (dem : List Cell) (q : ℚ) (hq0 : 0 ≤ q) (hq1 : q ≤ 100)
    (hne : validCells dem ≠ []) :
    nanpercentile dem (some q) = .ok (percentileSorted (sortedValid dem) q) := by
  have hsne : sortedValid dem ≠ [] := by
    intro h
    apply hne
    have hlen : (sortedValid dem).length = (validCells dem).length :=
      (List.perm_insertionSort (· ≤ ·) (validCells dem)).length_eq
    rw [h] at hlen
    exact List.length_eq_zero.mp hlen.symm
  cases hvs : sortedValid dem with
  | nil => exact absurd hvs hsne
  | cons v vs =>
    simp only [nanpercentile, hvs]
    rw [if_neg (by push_neg; exact ⟨hq0, hq1⟩)]

/-! Elementary facts about the percentile clipping. -/

theorem clip01_nonneg (x : ℚ) : 0 ≤ clip01 x :=
  le_min (le_max_right x 0) zero_le_one

theorem clip01_le_one (x : ℚ) : clip01 x ≤ 1 := min_le_right _ _

theorem clip01_eq_self {x : ℚ} (h0 : 0 ≤ x) (h1 : x ≤ 1) : clip01 x = x := by
  rw [clip01, max_eq_left h0, min_eq_left h1]

theorem clip01_eq_one {x : ℚ} (h : 1 ≤ x) : clip01 x = 1 := by
  rw [clip01, max_eq_left (le_trans zero_le_one h), min_eq_right h]

theorem le_clip01_add {p du : ℚ} (_hp0 : 0 ≤ p) (hp1 : p ≤ 1) (hdu : 0 ≤ du) :
    p ≤ clip01 (p + du) :=
  le_min (le_max_of_le_left (by linarith)) hp1

theorem clip01_sub_le {p dd : ℚ} (hp0 : 0 ≤ p) (hdd : 0 ≤ dd) :
    clip01 (p - dd) ≤ p :=
  le_trans (min_le_left _ _) (max_le (by linarith) hp0)

/-! Structure of a well-defined run of `calculate_sla_bounds`: with a
nonzero pixel size and at least one valid elevation cell, both
misclassification ratios are defined and non-negative, and the function
returns the two percentile altitudes of the clipped percentiles. -/

theorem total_area_ne_zero (dem : List Cell) (dx : ℚ) (hdx : dx ≠ 0)
    (hne : validCells dem ≠ []) : total_area dem dx ≠ 0 := by
  have h1 : (npx dem : ℚ) ≠ 0 := by
    rw [npx]
    exact_mod_cast fun h => hne (List.length_eq_zero.mp (by exact_mod_cast h))
  exact mul_ne_zero h1 (pow_ne_zero 2 hdx)

theorem calculate_sla_bounds_ok (aar sla : ℚ) (dem mask : List Cell) (dx : ℚ)
    (hdx : dx ≠ 0) (hne : validCells dem ≠ []) :
    ∃ du dd : ℚ, delta_up sla dem mask dx = some du ∧
      delta_down sla dem mask dx = some dd ∧ 0 ≤ du ∧ 0 ≤ dd ∧
      calculate_sla_bounds aar sla dem mask dx = .ok (sla,
        percentileSorted (sortedValid dem) (clip01 (sla_percentile aar + du) * 100),
        percentileSorted (sortedValid dem) (clip01 (sla_percentile aar - dd) * 100)) := by
  have htot : total_area dem dx ≠ 0 := total_area_ne_zero dem dx hdx hne
  have htot0 : 0 ≤ total_area dem dx := by
    rw [total_area]
    exact mul_nonneg (Nat.cast_nonneg _) (sq_nonneg dx)
  refine ⟨snow_free_above_sla_area sla dem mask dx / total_area dem dx,
    snow_covered_below_sla_area sla dem mask dx / total_area dem dx, ?_, ?_, ?_, ?_, ?_⟩
  · rw [delta_up, fdiv, if_neg htot]
  · rw [delta_down, fdiv, if_neg htot]
  · refine div_nonneg ?_ htot0
    rw [snow_free_above_sla_area]
    exact mul_nonneg (Nat.cast_nonneg _) (sq_nonneg dx)
  · refine div_nonneg ?_ htot0
    rw [snow_covered_below_sla_area]
    exact mul_nonneg (Nat.cast_nonneg _) (sq_nonneg dx)
  · have hup : upper_sla_percentile aar sla dem mask dx =
        some (clip01 (sla_percentile aar +
          snow_free_above_sla_area sla dem mask dx / total_area dem dx)) := by
      rw [upper_sla_percentile, delta_up, fdiv, if_neg htot, Option.map_some']
    have hlow : lower_sla_percentile aar sla dem mask dx =
        some (clip01 (sla_percentile aar -
          snow_covered_below_sla_area sla dem mask dx / total_area dem dx)) := by
      rw [lower_sla_percentile, delta_down, fdiv, if_neg htot, Option.map_some']
    have hq1 := nanpercentile_ok dem
      (clip01 (sla_percentile aar +
        snow_free_above_sla_area sla dem mask dx / total_area dem dx) * 100)
      (by have := clip01_nonneg (sla_percentile aar +
            snow_free_above_sla_area sla dem mask dx / total_area dem dx); linarith)
      (by have := clip01_le_one (sla_percentile aar +
            snow_free_above_sla_area sla dem mask dx / total_area dem dx); linarith)
      hne
    have hq2 := nanpercentile_ok dem
      (clip01 (sla_percentile aar -
        snow_covered_below_sla_area sla dem mask dx / total_area dem dx) * 100)
      (by have := clip01_nonneg (sla_percentile aar -
            snow_covered_below_sla_area sla dem mask dx / total_area dem dx); linarith)
      (by have := clip01_le_one (sla_percentile aar -
            snow_covered_below_sla_area sla dem mask dx / total_area dem dx); linarith)
      hne
    rw [calculate_sla_bounds, hup, hlow, Option.map_some', Option.map_some', hq1, hq2]
    rfl

/-! Facts about the sorted valid-sample list. -/

theorem sortedValid_sorted (dem : List Cell) : (sortedValid dem).Sorted (· ≤ ·) :=
  List.sorted_insertionSort _ _

theorem sortedValid_perm (dem : List Cell) : (sortedValid dem).Perm (validCells dem) :=
  List.perm_insertionSort _ _

theorem sortedValid_ne_nil (dem : List Cell) (hne : validCells dem ≠ []) :
    sortedValid dem ≠ [] := by
  intro h
  apply hne
  have hlen : (sortedValid dem).length = (validCells dem).length :=
    (sortedValid_perm dem).length_eq
  rw [h] at hlen
  exact List.length_eq_zero.mp hlen.symm

theorem sortedValid_getD_mem (dem : List Cell) {i : ℕ} (hi : i < (sortedValid dem).length) :
    (sortedValid dem).getD i 0 ∈ validCells dem := by
  rw [List.getD_eq_getElem _ 0 hi]
  exact (sortedValid_perm dem).mem_iff.mp (List.getElem_mem hi)

theorem min?_le_of_mem {l : List ℚ} {m b : ℚ} (hm : l.min? = some m) (hb : b ∈ l) :
    m ≤ b := by
  have h := (List.le_min?_iff (fun _ _ _ => le_min_iff) hm (x := m)).mp le_rfl
  exact h b hb

theorem le_max?_of_mem {l : List ℚ} {M b : ℚ} (hM : l.max? = some M) (hb : b ∈ l) :
    b ≤ M := by
  have h := (List.max?_le_iff (fun _ _ _ => max_le_iff) hM (x := M)).mp le_rfl
  exact h b hb

/-- Claim C3, counterexample: `calculate_sla_bounds` returns the caller-supplied
the `ELA_from_AAR_m` column of `stats_df` as the central altitude without recomputing it,
so with a central altitude of `1000` over a raster whose valid elevations
are `{0, 1}` (AAR = 1/2, both misclassification areas zero) the function
returns `(central, upper, lower) = (1000, 1/2, 1/2)`: the central altitude
exceeds the upper bound and lies outside the valid elevation range, and it
is not the (1 − AAR) percentile (which is 1/2). -/
theorem calculate_sla_bounds_order_counterexample :
    calculate_sla_bounds (1/2) 1000 [some 0, some 1] [some 0, some 0] 1 =
      .ok (1000, 1/2, 1/2) ∧ ¬ ((1000 : ℚ) ≤ 1/2) ∧ ¬ ((1000 : ℚ) ≤ 1) := by
  refine ⟨?_, by norm_num, by norm_num⟩
  norm_num [calculate_sla_bounds, nanpercentile, upper_sla_percentile, lower_sla_percentile,
    delta_up, delta_down, fdiv, total_area, npx, validCells, snow_free_above_sla_area,
    snow_covered_below_sla_area, snow_free_above_sla, snow_covered_below_sla, cellGT,
    cellLT, cellEQ, sla_percentile, clip01, sortedValid, percentileSorted,
    List.insertionSort, List.orderedInsert, bind, Except.bind, Int.fract,
    List.filterMap_cons, List.filterMap_nil, Option.map_some', pure, Except.pure]

/-- Claim C3 (amended): whenever the pixel size is nonzero, the elevation raster
has at least one valid cell, `AAR ∈ [0, 1]`, and the caller-supplied central
altitude `sla` equals the (1 − AAR) linear-interpolation percentile of the
valid elevation samples (as the upstream convention documented for
`ELA_from_AAR_m` prescribes), the returned triple satisfies
`lower ≤ central ≤ upper` and all three altitudes lie between the minimum
and the maximum of the valid elevation samples. -/
theorem calculate_sla_bounds_ordered (aar sla : ℚ) (dem mask : List Cell) (dx : ℚ)
    (haar0 : 0 ≤ aar) (haar1 : aar ≤ 1) (hdx : dx ≠ 0) (hne : validCells dem ≠ [])
    (hsla : sla = percentileSorted (sortedValid dem) (sla_percentile aar * 100)) :
    ∃ ub lb : ℚ, calculate_sla_bounds aar sla dem mask dx = .ok (sla, ub, lb) ∧
      lb ≤ sla ∧ sla ≤ ub ∧
      (∀ m, (validCells dem).min? = some m → m ≤ lb) ∧
      (∀ M, (validCells dem).max? = some M → ub ≤ M) := by
  obtain ⟨du, dd, hdu, hdd, hdu0, hdd0, heq⟩ :=
    calculate_sla_bounds_ok aar sla dem mask dx hdx hne
  have hp0 : 0 ≤ sla_percentile aar := by rw [sla_percentile]; linarith
  have hp1 : sla_percentile aar ≤ 1 := by rw [sla_percentile]; linarith
  have hs := sortedValid_sorted dem
  have hsne := sortedValid_ne_nil dem hne
  have hql0 : 0 ≤ clip01 (sla_percentile aar - dd) * 100 := by
    have := clip01_nonneg (sla_percentile aar - dd); linarith
  have hqu1 : clip01 (sla_percentile aar + du) * 100 ≤ 100 := by
    have := clip01_le_one (sla_percentile aar + du); linarith
  have hlq : clip01 (sla_percentile aar - dd) * 100 ≤ sla_percentile aar * 100 :=
    mul_le_mul_of_nonneg_right (clip01_sub_le hp0 hdd0) (by norm_num)
  have huq : sla_percentile aar * 100 ≤ clip01 (sla_percentile aar + du) * 100 :=
    mul_le_mul_of_nonneg_right (le_clip01_add hp0 hp1 hdu0) (by norm_num)
  have hlb_le : percentileSorted (sortedValid dem) (clip01 (sla_percentile aar - dd) * 100)
      ≤ sla := by
    rw [hsla]
    exact percentileSorted_mono _ hs hsne hql0 hlq (by linarith)
  have hub_ge : sla ≤
      percentileSorted (sortedValid dem) (clip01 (sla_percentile aar + du) * 100) := by
    rw [hsla]
    exact percentileSorted_mono _ hs hsne (by linarith) huq hqu1
  have hub_bounds := percentileSorted_bounds _ hs hsne
    (clip01 (sla_percentile aar + du) * 100) (by linarith) hqu1
  have hlb_bounds := percentileSorted_bounds _ hs hsne
    (clip01 (sla_percentile aar - dd) * 100) hql0 (by linarith)
  refine ⟨_, _, heq, hlb_le, hub_ge, ?_, ?_⟩
  · intro m hm
    have hmem := sortedValid_getD_mem dem (i := 0)
      (List.length_pos.mpr hsne)
    exact le_trans (min?_le_of_mem hm hmem) hlb_bounds.1
  · intro M hM
    have hmem := sortedValid_getD_mem dem
      (i := (sortedValid dem).length - 1)
      (Nat.sub_lt (List.length_pos.mpr hsne) one_pos)
    exact le_trans hub_bounds.2 (le_max?_of_mem hM hmem)

/-- Witness for the amended C3 theorem at a concrete input: AAR = 1/2 over
valid elevations {0, 1} with central altitude 1/2 (the 50th percentile). -/
theorem calculate_sla_bounds_ordered_witness :
    (validCells [some 0, some 1] ≠ []) ∧
    ((1/2 : ℚ) =
      percentileSorted (sortedValid [some 0, some 1]) (sla_percentile (1/2) * 100)) ∧
    (∃ ub lb : ℚ,
      calculate_sla_bounds (1/2) (1/2) [some 0, some 1] [some 0, some 0] 1 =
        .ok (1/2, ub, lb) ∧
      lb ≤ 1/2 ∧ (1/2 : ℚ) ≤ ub ∧
      (∀ m, (validCells [some 0, some 1]).min? = some m → m ≤ lb) ∧
      (∀ M, (validCells [some 0, some 1]).max? = some M → ub ≤ M)) := by
  have h1 : validCells [some 0, some 1] ≠ [] := by
    simp [validCells, List.filterMap_cons]
  have h2 : (1/2 : ℚ) =
      percentileSorted (sortedValid [some 0, some 1]) (sla_percentile (1/2) * 100) := by
    norm_num [percentileSorted, sortedValid, validCells, sla_percentile,
      List.filterMap_cons, List.insertionSort, List.orderedInsert, Int.fract]
  exact ⟨h1, h2, calculate_sla_bounds_ordered (1/2) (1/2) [some 0, some 1] [some 0, some 0] 1
    (by norm_num) (by norm_num) (by norm_num) h1 h2⟩

/-- Claim C8, counterexample: with both misclassification areas zero but a
caller-supplied central altitude (2000) different from the (1 − AAR)
percentile, the triple does not collapse: the function returns
`(2000, 1/2, 1/2)`, whose lower and upper bounds agree but differ from the
central altitude. -/
theorem calculate_sla_bounds_collapse_counterexample :
    calculate_sla_bounds (1/2) 2000 [some 0, some 1] [some 0, some 0] 1 =
      .ok (2000, 1/2, 1/2) ∧ ((2000 : ℚ) ≠ 1/2) := by
  refine ⟨?_, by norm_num⟩
  norm_num [calculate_sla_bounds, nanpercentile, upper_sla_percentile, lower_sla_percentile,
    delta_up, delta_down, fdiv, total_area, npx, validCells, snow_free_above_sla_area,
    snow_covered_below_sla_area, snow_free_above_sla, snow_covered_below_sla, cellGT,
    cellLT, cellEQ, sla_percentile, clip01, sortedValid, percentileSorted,
    List.insertionSort, List.orderedInsert, bind, Except.bind, Int.fract,
    List.filterMap_cons, List.filterMap_nil, Option.map_some', pure, Except.pure]

/-- Claim C8 (amended): when both misclassification pixel counts are zero, the
pixel size is nonzero, at least one elevation cell is valid, `AAR ∈ [0, 1]`,
and the caller-supplied central altitude equals the (1 − AAR) percentile of
the valid elevation samples, the returned SLA bound collapses:
`lower = central = upper`. -/
theorem calculate_sla_bounds_collapse (aar sla : ℚ) (dem mask : List Cell) (dx : ℚ)
    (haar0 : 0 ≤ aar) (haar1 : aar ≤ 1) (hdx : dx ≠ 0) (hne : validCells dem ≠ [])
    (hsla : sla = percentileSorted (sortedValid dem) (sla_percentile aar * 100))
    (hup : (snow_free_above_sla sla dem mask).count 1 = 0)
    (hdown : (snow_covered_below_sla sla dem mask).count 1 = 0) :
    calculate_sla_bounds aar sla dem mask dx = .ok (sla, sla, sla) := by
  obtain ⟨du, dd, hdu, hdd, _, _, heq⟩ :=
    calculate_sla_bounds_ok aar sla dem mask dx hdx hne
  have htot : total_area dem dx ≠ 0 := total_area_ne_zero dem dx hdx hne
  have hdu' : delta_up sla dem mask dx = some 0 := by
    rw [delta_up, snow_free_above_sla_area, hup, fdiv, if_neg htot]
    norm_num
  have hdd' : delta_down sla dem mask dx = some 0 := by
    rw [delta_down, snow_covered_below_sla_area, hdown, fdiv, if_neg htot]
    norm_num
  have hdu0 : du = 0 := by
    have := hdu.symm.trans hdu'
    exact Option.some.inj this
  have hdd0 : dd = 0 := by
    have := hdd.symm.trans hdd'
    exact Option.some.inj this
  rw [hdu0, hdd0] at heq
  have hp0 : 0 ≤ sla_percentile aar := by rw [sla_percentile]; linarith
  have hp1 : sla_percentile aar ≤ 1 := by rw [sla_percentile]; linarith
  have hcl : clip01 (sla_percentile aar + 0) = sla_percentile aar := by
    rw [add_zero]; exact clip01_eq_self hp0 hp1
  have hcl2 : clip01 (sla_percentile aar - 0) = sla_percentile aar := by
    rw [sub_zero]; exact clip01_eq_self hp0 hp1
  rw [hcl, hcl2, ← hsla] at heq
  exact heq

/-- Witness for the amended C8 theorem: AAR = 1/2, valid elevations {0, 1},
central altitude 1/2, and a mask that misclassifies no pixel. -/
theorem calculate_sla_bounds_collapse_witness :
    ((snow_free_above_sla (1/2) [some 0, some 1] [some 0, some 1]).count 1 = 0) ∧
    ((snow_covered_below_sla (1/2) [some 0, some 1] [some 0, some 1]).count 1 = 0) ∧
    calculate_sla_bounds (1/2) (1/2) [some 0, some 1] [some 0, some 1] 1 =
      .ok (1/2, 1/2, 1/2) := by
  have h1 : (snow_free_above_sla (1/2) [some 0, some 1] [some 0, some 1]).count 1 = 0 := by
    norm_num [snow_free_above_sla, cellGT, cellEQ, List.count_cons]
  have h2 : (snow_covered_below_sla (1/2) [some 0, some 1] [some 0, some 1]).count 1 = 0 := by
    norm_num [snow_covered_below_sla, cellLT, cellEQ, List.count_cons]
  refine ⟨h1, h2, calculate_sla_bounds_collapse (1/2) (1/2) [some 0, some 1]
    [some 0, some 1] 1 (by norm_num) (by norm_num) (by norm_num) ?_ ?_ h1 h2⟩
  · simp [validCells, List.filterMap_cons]
  · norm_num [percentileSorted, sortedValid, validCells, sla_percentile,
      List.filterMap_cons, List.insertionSort, List.orderedInsert, Int.fract]

/-- every member of a sorted list is at most its last element. -/
theorem sorted_getD_last_ge (vs : List ℚ) (hs : vs.Sorted (· ≤ ·)) {x : ℚ}
    (hx : x ∈ vs) : x ≤ vs.getD (vs.length - 1) 0 := by
  obtain ⟨i, hi⟩ := List.mem_iff_get.mp hx
  have h := sorted_getD_le vs hs (i := (i : ℕ)) (j := vs.length - 1)
    (by omega) (by have := i.isLt; omega)
  rw [List.getD_eq_getElem vs 0 i.isLt] at h
  rw [← hi]
  exact h

/-- Claim C9: whenever the misclassification ratio `delta_up` is defined and
`sla_percentile + delta_up` exceeds 1, the upper percentile is clipped to
exactly 1, and the returned upper bound is the maximum of the valid
elevation samples. -/
theorem upper_percentile_clamped (aar sla : ℚ) (dem mask : List Cell) (dx : ℚ)
    (du : ℚ) (hdu : delta_up sla dem mask dx = some du)
    (hgt : 1 < sla_percentile aar + du) :
    upper_sla_percentile aar sla dem mask dx = some 1 ∧
    ∀ M, (validCells dem).max? = some M →
      ∃ lb, calculate_sla_bounds aar sla dem mask dx = .ok (sla, M, lb) := by
  have htot : total_area dem dx ≠ 0 := by
    intro h
    rw [delta_up, fdiv, if_pos h] at hdu
    exact Option.noConfusion hdu
  have hdx : dx ≠ 0 := by
    intro h
    apply htot
    rw [total_area, h]
    ring
  have hne : validCells dem ≠ [] := by
    intro h
    apply htot
    rw [total_area, npx, h]
    norm_num
  have hclip : clip01 (sla_percentile aar + du) = 1 := clip01_eq_one (le_of_lt hgt)
  constructor
  · rw [upper_sla_percentile, hdu, Option.map_some', hclip]
  · intro M hM
    obtain ⟨du2, dd, hdu2, hdd, hdu0, hdd0, heq⟩ :=
      calculate_sla_bounds_ok aar sla dem mask dx hdx hne
    have hdu2e : du2 = du := Option.some.inj (hdu2.symm.trans hdu)
    rw [hdu2e, hclip, one_mul] at heq
    have hs := sortedValid_sorted dem
    have hsne := sortedValid_ne_nil dem hne
    have hlast := percentileSorted_hundred (sortedValid dem) hsne
    have hmem := sortedValid_getD_mem dem
      (i := (sortedValid dem).length - 1)
      (Nat.sub_lt (List.length_pos.mpr hsne) one_pos)
    have hMv : M ∈ sortedValid dem :=
      (sortedValid_perm dem).mem_iff.mpr (List.max?_mem max_choice hM)
    have hML : (sortedValid dem).getD ((sortedValid dem).length - 1) 0 = M :=
      le_antisymm (le_max?_of_mem hM hmem) (sorted_getD_last_ge _ hs hMv)
    refine ⟨percentileSorted (sortedValid dem) (clip01 (sla_percentile aar - dd) * 100), ?_⟩
    rw [heq, hlast, hML]

/-- Witness for the C9 theorem: AAR = 1/2 with central input −1 over valid
elevations {0, 1} makes every valid cell count as snow-free-above-SLA, so
`delta_up = 1` and `sla_percentile + delta_up = 3/2 > 1`; the upper bound
returned is the maximum valid elevation, 1. -/
theorem upper_percentile_clamped_witness :
    (delta_up (-1) [some 0, some 1] [some 0, some 0] 1 = some 1) ∧
    (1 < sla_percentile (1/2) + 1) ∧
    (upper_sla_percentile (1/2) (-1) [some 0, some 1] [some 0, some 0] 1 = some 1) ∧
    ((validCells [some 0, some 1]).max? = some 1) ∧
    (∃ lb, calculate_sla_bounds (1/2) (-1) [some 0, some 1] [some 0, some 0] 1 =
      .ok (-1, 1, lb)) := by
  have h1 : delta_up (-1) [some 0, some 1] [some 0, some 0] 1 = some 1 := by
    norm_num [delta_up, fdiv, total_area, npx, validCells, snow_free_above_sla_area,
      snow_free_above_sla, cellGT, cellEQ, List.filterMap_cons, List.count_cons]
  have h2 : 1 < sla_percentile (1/2) + 1 := by norm_num [sla_percentile]
  have h4 : (validCells [some 0, some 1]).max? = some 1 := by
    norm_num [validCells, List.filterMap_cons, List.max?, List.foldl]
  have h := upper_percentile_clamped (1/2) (-1) [some 0, some 1] [some 0, some 0] 1 1 h1 h2
  exact ⟨h1, h2, h.1, h4, h.2 1 h4⟩

/-- Claim C2: on a raster pair with zero total valid area (every elevation cell
missing), `calculate_sla_bounds` does not fail with a "no valid area"
result: it divides the misclassification areas by the zero total area,
producing NaN adjusted percentiles, and then raises the unrelated
percentile-range `ValueError` from inside `np.nanpercentile`. -/
theorem calculate_sla_bounds_zero_area_raises :
    total_area [none] 1 = 0 ∧
    calculate_sla_bounds (1/2) 0 [none] [some 1] 1 =
      .error "ValueError: Percentiles must be in the range [0, 100]" := by
  constructor
  · norm_num [total_area, npx, validCells, List.filterMap_cons]
  · norm_num [calculate_sla_bounds, nanpercentile, upper_sla_percentile,
      lower_sla_percentile, delta_up, delta_down, fdiv, total_area, npx, validCells,
      snow_free_above_sla_area, snow_covered_below_sla_area, snow_free_above_sla,
      snow_covered_below_sla, cellGT, cellLT, cellEQ, sla_percentile, clip01,
      List.filterMap_cons, bind, Except.bind]

/-! Raster area statistics (claims about missing-cell exclusion). -/

/-- pairing of co-registered cells that keeps only positions where both
fields are non-missing. -/
def pairValid (dm : Cell × Cell) : Option (ℚ × ℚ) :=
  match dm with
  | (some e, some m) => some (e, m)
  | _ => none

/-- total valid area as the claim words it: cells where either input is
missing are excluded from the count (this definition follows the claim,
not the code, and is compared against the code). -/
def total_valid_area_claim (dem mask : List Cell) (dx : ℚ) : ℚ :=
  (((dem.zip mask).filterMap pairValid).length : ℚ) * dx ^ 2

/-- counting 1-cells of an indicator grid equals counting the predicate. -/
theorem count_one_map_ite (p : Cell × Cell → Bool) (l : List (Cell × Cell)) :
    (l.map (fun x => if p x then 1 else 0)).count 1 = l.countP p := by
  induction l with
  | nil => rfl
  | cons x xs ih =>
    by_cases h : p x <;>
      simp [List.count_cons, List.countP_cons, h, ih]

/-- a cell-wise predicate that is false on missing cells counts the same
over the raw zipped grid as over the both-valid pairs. -/
theorem countP_zip_pairValid (A B : ℚ → Bool) (l : List (Cell × Cell)) :
    l.countP (fun dm =>
        (match dm.1 with | none => false | some e => A e) &&
        (match dm.2 with | none => false | some m => B m)) =
      (l.filterMap pairValid).countP (fun em => A em.1 && B em.2) := by
  induction l with
  | nil => rfl
  | cons x xs ih =>
    obtain ⟨d, m⟩ := x
    cases d <;> cases m <;>
      simp [pairValid, List.countP_cons, List.filterMap_cons, ih]

/-- Claim C7, counterexample: a cell whose elevation is valid but whose
snow-cover value is missing is still counted in the total valid area
(`total_area` is computed from the elevation raster alone), contradicting
the exclusion of cells where either input is missing: on a one-cell raster
with elevation 5 and a missing mask value, the code computes total area 1
while the exclusion rule in the claim yields 0. -/
theorem total_area_missing_mask_counterexample :
    total_area [some 5] 1 = 1 ∧
    total_valid_area_claim [some 5] [none] 1 = 0 ∧ (1 : ℚ) ≠ 0 := by
  refine ⟨?_, ?_, by norm_num⟩
  · norm_num [total_area, npx, validCells, List.filterMap_cons]
  · norm_num [total_valid_area_claim, pairValid, List.filterMap_cons]

/-- Claim C7 (amended): both misclassification areas exclude every cell where
either the elevation or the snow-cover value is missing (each equals the
count over the both-valid cell pairs, times `dx²`), and each reported area
equals its matching cell count times `dx²`; the total valid area, however,
excludes only cells with missing elevation — it equals the count of
non-missing elevation cells times `dx²`, regardless of the mask. -/
theorem area_statistics_missing_cells (sla : ℚ) (dem mask : List Cell) (dx : ℚ) :
    snow_free_above_sla_area sla dem mask dx =
      ((((dem.zip mask).filterMap pairValid).countP
        (fun em => decide (sla < em.1) && decide (em.2 = 0))) : ℚ) * dx ^ 2 ∧
    snow_covered_below_sla_area sla dem mask dx =
      ((((dem.zip mask).filterMap pairValid).countP
        (fun em => decide (em.1 < sla) && decide (em.2 = 1))) : ℚ) * dx ^ 2 ∧
    total_area dem dx = ((dem.countP (fun d => d.isSome)) : ℚ) * dx ^ 2 := by
  refine ⟨?_, ?_, ?_⟩
  · rw [snow_free_above_sla_area, snow_free_above_sla,
      count_one_map_ite (fun dm => cellGT dm.1 sla && cellEQ dm.2 0)]
    congr 2
    exact countP_zip_pairValid (fun e => decide (sla < e)) (fun m => decide (m = 0)) _
  · rw [snow_covered_below_sla_area, snow_covered_below_sla,
      count_one_map_ite (fun dm => cellLT dm.1 sla && cellEQ dm.2 1)]
    congr 2
    exact countP_zip_pairValid (fun e => decide (e < sla)) (fun m => decide (m = 1)) _
  · rw [total_area, npx, validCells]
    congr 2
    induction dem with
    | nil => rfl
    | cons d ds ih =>
      cases d <;> simp [List.filterMap_cons, List.countP_cons, ih]

/-- Claim C10: a valid cell whose elevation equals the snowline altitude exactly
is counted in neither misclassification area — inserting such a cell (with
any snow-cover value) anywhere in the co-registered rasters leaves both
`snow_free_above_sla_area` and `snow_covered_below_sla_area` unchanged,
because both comparisons against the threshold are strict. -/
theorem boundary_cell_not_misclassified (sla : ℚ) (m : Cell)
    (dem1 dem2 mask1 mask2 : List Cell) (dx : ℚ)
    (hlen : dem1.length = mask1.length) :
    snow_free_above_sla_area sla (dem1 ++ some sla :: dem2) (mask1 ++ m :: mask2) dx =
      snow_free_above_sla_area sla (dem1 ++ dem2) (mask1 ++ mask2) dx ∧
    snow_covered_below_sla_area sla (dem1 ++ some sla :: dem2) (mask1 ++ m :: mask2) dx =
      snow_covered_below_sla_area sla (dem1 ++ dem2) (mask1 ++ mask2) dx := by
  constructor
  · simp [snow_free_above_sla_area, snow_free_above_sla, List.zip_append hlen,
      List.count_append, List.count_cons, cellGT, lt_irrefl]
  · simp [snow_covered_below_sla_area, snow_covered_below_sla, List.zip_append hlen,
      List.count_append, List.count_cons, cellLT, lt_irrefl]

/-- Witness for C10: a boundary cell at elevation 5 = SLA with a snow-free
mask value contributes to neither misclassification area. -/
theorem boundary_cell_not_misclassified_witness :
    snow_free_above_sla_area 5 [some 6, some 5] [some 0, some 0] 1 =
      snow_free_above_sla_area 5 [some 6] [some 0] 1 ∧
    snow_covered_below_sla_area 5 [some 6, some 5] [some 0, some 0] 1 =
      snow_covered_below_sla_area 5 [some 6] [some 0] 1 :=
  boundary_cell_not_misclassified 5 (some 0) [some 6] [] [some 0] [] 1 rfl

/-! Model selection by K-fold cross-validation (`determine_best_model`,
lines 357–476 of `utils.py`). -/

/-- an sklearn regressor, modelled extensionally: `fit` consumes training
features and labels and yields the prediction function used by `predict`. -/
def Regressor := List (List ℚ) → List ℚ → (List ℚ → ℚ)

/-- the always-zero regressor, used as the `getD` default and in witnesses. -/
def zeroRegressor : Regressor := fun _ _ _ => 0

/-- a 64-bit linear congruential step, driving the modelled shuffle. -/
def lcg (s : ℕ) : ℕ :=
  (6364136223846793005 * s + 1442695040888963407) % 18446744073709551616

/-- fuel-indexed selection shuffle: repeatedly pick the position given by
the current generator state and remove it. -/
def shuffleAux : ℕ → ℕ → List ℕ → List ℕ
  | 0, _, _ => []
  | _ + 1, _, [] => []
  | fuel + 1, s, l => (l.getD (s % l.length) 0) :: shuffleAux fuel (lcg s) (l.eraseIdx (s % l.length))

/-- deterministic seeded shuffle of an index list. -/
def shuffleList (seed : ℕ) (l : List ℕ) : List ℕ := shuffleAux l.length (lcg seed) l

/-- sklearn fold sizing: the first `n % k` folds get `n / k + 1` samples,
the rest `n / k`. -/
def foldSizes (k n : ℕ) : List ℕ :=
  (List.range k).map (fun j => n / k + if j < n % k then 1 else 0)

/-- split a list into consecutive chunks of the given sizes. -/
def splitBySizes : List ℕ → List ℕ → List (List ℕ)
  | _, [] => []
  | l, s :: rest => l.take s :: splitBySizes (l.drop s) rest

/-- Modelled from the spec: `sklearn.model_selection.KFold(n_splits,
shuffle=True, random_state).split(X)` — the library is an external
collaborator whose contract the spec fixes as a deterministic shuffle of
the sample index set seeded by `random_state`, split into `n_splits`
consecutive chunks of sklearn fold sizing; each `(train, test)` pair lists
its indices in ascending order, because sklearn recovers both from boolean
masks over `arange(n)`.  (sklearn raises when `n_splits < 2` or
`n_splits > n`; no claim exercises those inputs.) -/
def kfoldSplit (random_state n_splits n : ℕ) : List (List ℕ × List ℕ) :=
  let perm := shuffleList random_state (List.range n)
  let chunks := splitBySizes perm (foldSizes n_splits n)
  chunks.map (fun c =>
    ((List.range n).filter (fun i => !c.contains i),
     (List.range n).filter (fun i => c.contains i)))

/-- model of `np.nanmean` of a list of non-NaN values: the arithmetic mean. -/
def nanmean (l : List ℚ) : ℚ := l.sum / l.length

/-- model of `sklearn.metrics.mean_absolute_error`. -/
def mean_absolute_error (yt yp : List ℚ) : ℚ :=
  nanmean ((yt.zip yp).map (fun ab => |ab.1 - ab.2|))

/-- model of `sklearn.metrics.mean_squared_error`. -/
def mean_squared_error (yt yp : List ℚ) : ℚ :=
  nanmean ((yt.zip yp).map (fun ab => (ab.1 - ab.2) ^ 2))

/-- the float64 machine epsilon used by sklearn to guard the MAPE
denominator. -/
def eps64 : ℚ := 1 / 2 ^ 52

/-- model of `sklearn.metrics.mean_absolute_percentage_error`. -/
def mean_absolute_percentage_error (yt yp : List ℚ) : ℚ :=
  nanmean ((yt.zip yp).map (fun ab => |ab.1 - ab.2| / max |ab.1| eps64))

/-- model of `sklearn.metrics.max_error`. -/
def max_error (yt yp : List ℚ) : ℚ :=
  ((yt.zip yp).map (fun ab => |ab.1 - ab.2|)).foldr max 0

/-- model of `sklearn.metrics.r2_score`, with the sklearn convention for a constant
truth: 1 when the residuals are also zero, else 0. -/
def r2_score (yt yp : List ℚ) : ℚ :=
  let ss_res := ((yt.zip yp).map (fun ab => (ab.1 - ab.2) ^ 2)).sum
  let ybar := nanmean yt
  let ss_tot := (yt.map (fun v => (v - ybar) ^ 2)).sum
  if ss_tot = 0 then (if ss_res = 0 then 1 else 0) else 1 - ss_res / ss_tot

/-- the five per-fold regression metrics of lines 435–439. -/
structure Metrics where
  mean_abs_err : ℚ
  mean_sq_err : ℚ
  mean_abs_percentage_err : ℚ
  max_err : ℚ
  rsq : ℚ
deriving DecidableEq

/-- one iteration of the fold loop (lines 423–441): select the train and
test rows, fit, predict, and compute the five metrics on the test fold. -/
def foldMetrics (model : Regressor) (X : List (List ℚ)) (y : List ℚ)
    (ixs : List ℕ × List ℕ) : Metrics :=
  let X_train := ixs.1.map (fun i => X.getD i [])
  let y_train := ixs.1.map (fun i => y.getD i 0)
  let X_test := ixs.2.map (fun i => X.getD i [])
  let y_test := ixs.2.map (fun i => y.getD i 0)
  let y_pred := X_test.map (model X_train y_train)
  { mean_abs_err := mean_absolute_error y_test y_pred
    mean_sq_err := mean_squared_error y_test y_pred
    mean_abs_percentage_err := mean_absolute_percentage_error y_test y_pred
    max_err := max_error y_test y_pred
    rsq := r2_score y_test y_pred }

/-- the fold partition used for one candidate: the source constructs
`KFold(n_splits=num_folds, shuffle=True, random_state=1)` afresh inside the
per-candidate loop (line 414), with the hard-coded seed 1 — the `model`
argument only records that the construction happens per candidate. -/
def candidate_folds (_model : Regressor) (num_folds n : ℕ) : List (List ℕ × List ℕ) :=
  kfoldSplit 1 num_folds n

/-- per-fold metric records of one candidate. -/
def modelFoldMetrics (model : Regressor) (X : List (List ℚ)) (y : List ℚ)
    (num_folds : ℕ) : List Metrics :=
  (candidate_folds model num_folds X.length).map (foldMetrics model X y)

/-- aggregation of the fold metrics (lines 443–448), reproducing the
source faithfully: `mean_abs_err`, `mean_sq_err` and `max_err` are
`np.nanmean` of their own fold arrays, but line 439 overwrites the
`rsq_folds` ARRAY with the scalar `r2_score` of the current fold, so after
the loop `rsq_folds` is the last fold R² (or the initial all-zero array if
no fold ran), and both `mean_abs_percentage_err` (line 446) and `rsq`
(line 448) aggregate that scalar instead of their fold arrays. -/
def modelAggregates (model : Regressor) (X : List (List ℚ)) (y : List ℚ)
    (num_folds : ℕ) : Metrics :=
  let ms := modelFoldMetrics model X y num_folds
  let rsq_folds_final : ℚ :=
    match (ms.map (·.rsq)).getLast? with
    | some r => r
    | none => 0
  { mean_abs_err := nanmean (ms.map (·.mean_abs_err))
    mean_sq_err := nanmean (ms.map (·.mean_sq_err))
    mean_abs_percentage_err := rsq_folds_final
    max_err := nanmean (ms.map (·.max_err))
    rsq := rsq_folds_final }

/-- model of `np.min` of a list (raises on an empty array in numpy; the empty case
is guarded by the `models ≠ []` hypotheses of the theorems below). -/
def npMin (l : List ℚ) : ℚ :=
  match l.min? with
  | some v => v
  | none => 0

/-- the per-candidate aggregate mean absolute errors (the array
`mean_abs_err` of line 402/444). -/
def model_maes (X : List (List ℚ)) (y : List ℚ) (models : List Regressor)
    (num_folds : ℕ) : List ℚ :=
  (models.map (fun m => modelAggregates m X y num_folds)).map (·.mean_abs_err)

/-- the numeric core of `determine_best_model`: all candidate aggregates,
the selected index `ibest = np.argwhere(mean_abs_err ==
np.min(mean_abs_err))[0][0]` (line 465), and the selected estimator
retrained on the ENTIRE dataset (line 472), returned to the caller. -/
def determine_best_model_core (X : List (List ℚ)) (y : List ℚ)
    (models : List Regressor) (num_folds : ℕ) :
    (List ℚ → ℚ) × List Metrics × ℕ :=
  let aggs := models.map (fun m => modelAggregates m X y num_folds)
  let mean_abs_err := aggs.map (·.mean_abs_err)
  let ibest := mean_abs_err.findIdx (fun v => v == npMin mean_abs_err)
  let best_model := models.getD ibest zeroRegressor
  (best_model X y, aggs, ibest)

/-- effect-aware model of `determine_best_model` (lines 453–476): `pathOk`
abstracts whether `out_path` is a valid writable directory.  The
performance table is written only when `save_performances` is set
(line 454) and `to_csv` raises on an invalid path (line 461); selecting the
best index calls `np.min`, which raises on an empty candidate list
(line 465); the retrained model is then `dump`-ed UNCONDITIONALLY
(line 473), and `dump` raises on an invalid path, so the in-memory result
is lost. -/
def determine_best_model_run (pathOk save_performances : Bool)
    (X : List (List ℚ)) (y : List ℚ) (models : List Regressor)
    (num_folds : ℕ) : Except String ((List ℚ → ℚ) × List Metrics) :=
  let aggs := models.map (fun m => modelAggregates m X y num_folds)
  if save_performances && !pathOk then
    .error "OSError: cannot save performances table to out_path"
  else if models.isEmpty then
    .error "ValueError: zero-size array to reduction operation minimum which has no identity"
  else
    let mean_abs_err := aggs.map (·.mean_abs_err)
    let ibest := mean_abs_err.findIdx (fun v => v == npMin mean_abs_err)
    let best_model_retrained := (models.getD ibest zeroRegressor) X y
    if !pathOk then .error "OSError: cannot save best model to out_path"
    else .ok (best_model_retrained, aggs)

/-- Claim C1: the aggregation bug evaluated.  On the dataset
`X = [[0],[1],[2],[3]]`, `y = [1,2,3,4]` with the always-zero regressor and
2 folds, every per-fold mean absolute percentage error is 1, yet the
aggregate `mean_abs_percentage_err` is −25 — the R² of the LAST fold —
because line 439 overwrites the `rsq_folds` array with a scalar and
line 446 aggregates `rsq_folds` instead of
`mean_abs_percentage_err_folds`; likewise the aggregate `rsq` is −25, not
the arithmetic mean −125/9 of the per-fold R² values. -/
theorem metrics_aggregation_bug :
    (modelAggregates zeroRegressor [[0],[1],[2],[3]] [1,2,3,4] 2).mean_abs_percentage_err
        = -25 ∧
    nanmean ((modelFoldMetrics zeroRegressor [[0],[1],[2],[3]] [1,2,3,4] 2).map
      (fun m => m.mean_abs_percentage_err)) = 1 ∧
    (modelAggregates zeroRegressor [[0],[1],[2],[3]] [1,2,3,4] 2).rsq = -25 ∧
    nanmean ((modelFoldMetrics zeroRegressor [[0],[1],[2],[3]] [1,2,3,4] 2).map
      (fun m => m.rsq)) = -125/9 ∧
    ((modelFoldMetrics zeroRegressor [[0],[1],[2],[3]] [1,2,3,4] 2).map
      (fun m => m.rsq)).getLast? = some (-25) := by
  have hk : kfoldSplit 1 2 4 = [([1, 2], [0, 3]), ([0, 3], [1, 2])] := rfl
  refine ⟨?_, ?_, ?_, ?_, ?_⟩ <;>
    norm_num [modelAggregates, modelFoldMetrics, candidate_folds, hk, foldMetrics,
      mean_absolute_error, mean_squared_error, mean_absolute_percentage_error,
      max_error, r2_score, nanmean, zeroRegressor, eps64, List.getD]

/-- Claim C4: `determine_best_model` selects the first candidate attaining the
minimum aggregate mean absolute error (`np.argwhere(mean_abs_err ==
np.min(mean_abs_err))[0][0]`), retrains exactly that estimator on the
entire dataset `X, y` (not on a fold), and returns the retrained
estimator. -/
theorem best_model_selection (X : List (List ℚ)) (y : List ℚ)
    (models : List Regressor) (num_folds : ℕ) (hm : models ≠ []) :
    ∃ i : ℕ, i < models.length ∧
      (model_maes X y models num_folds).getD i 0 =
        npMin (model_maes X y models num_folds) ∧
      (∀ j, j < i → npMin (model_maes X y models num_folds) <
        (model_maes X y models num_folds).getD j 0) ∧
      (determine_best_model_core X y models num_folds).2.2 = i ∧
      (determine_best_model_core X y models num_folds).1 =
        (models.getD i zeroRegressor) X y := by
  have hlen : (model_maes X y models num_folds).length = models.length := by
    rw [model_maes, List.length_map, List.length_map]
  have hne : model_maes X y models num_folds ≠ [] := by
    intro h
    apply hm
    rw [h] at hlen
    exact List.length_eq_zero.mp hlen.symm
  obtain ⟨v, hv⟩ : ∃ v, (model_maes X y models num_folds).min? = some v := by
    cases h : (model_maes X y models num_folds).min? with
    | none => exact absurd (List.min?_eq_none_iff.mp h) hne
    | some v => exact ⟨v, rfl⟩
  have hnpmin : npMin (model_maes X y models num_folds) = v := by rw [npMin, hv]
  have hvmem : v ∈ model_maes X y models num_folds := List.min?_mem min_choice hv
  have hex : ∃ x ∈ model_maes X y models num_folds,
      (fun x => x == npMin (model_maes X y models num_folds)) x :=
    ⟨v, hvmem, by simp [hnpmin]⟩
  have hidx := List.findIdx_lt_length_of_exists hex
  refine ⟨(model_maes X y models num_folds).findIdx
    (fun x => x == npMin (model_maes X y models num_folds)), by omega, ?_, ?_, rfl, rfl⟩
  · rw [List.getD_eq_getElem _ 0 hidx]
    have h := List.findIdx_getElem (w := hidx)
    simpa using h
  · intro j hj
    have hjlt : j < (model_maes X y models num_folds).length := lt_trans hj hidx
    have hmem : (model_maes X y models num_folds)[j] ∈ model_maes X y models num_folds :=
      List.getElem_mem hjlt
    have hle : v ≤ (model_maes X y models num_folds)[j] := min?_le_of_mem hv hmem
    have hne2 := List.not_of_lt_findIdx hj
    have hne3 : (model_maes X y models num_folds)[j] ≠
        npMin (model_maes X y models num_folds) := by
      intro he
      rw [he] at hne2
      simp at hne2
    rw [List.getD_eq_getElem _ 0 hjlt]
    rw [hnpmin]
    rcases lt_or_eq_of_le hle with h | h
    · exact h
    · exact absurd (by rw [← h, hnpmin] : (model_maes X y models num_folds)[j] =
        npMin (model_maes X y models num_folds)) hne3

/-- Witness for the C4 theorem on a concrete one-candidate input. -/
theorem best_model_selection_witness :
    (([zeroRegressor] : List Regressor) ≠ []) ∧
    (∃ i : ℕ, i < ([zeroRegressor] : List Regressor).length ∧
      (model_maes [[0],[1],[2],[3]] [1,2,3,4] [zeroRegressor] 2).getD i 0 =
        npMin (model_maes [[0],[1],[2],[3]] [1,2,3,4] [zeroRegressor] 2) ∧
      (∀ j, j < i → npMin (model_maes [[0],[1],[2],[3]] [1,2,3,4] [zeroRegressor] 2) <
        (model_maes [[0],[1],[2],[3]] [1,2,3,4] [zeroRegressor] 2).getD j 0) ∧
      (determine_best_model_core [[0],[1],[2],[3]] [1,2,3,4] [zeroRegressor] 2).2.2 = i ∧
      (determine_best_model_core [[0],[1],[2],[3]] [1,2,3,4] [zeroRegressor] 2).1 =
        (([zeroRegressor] : List Regressor).getD i zeroRegressor) [[0],[1],[2],[3]]
          [1,2,3,4]) :=
  ⟨by simp, best_model_selection [[0],[1],[2],[3]] [1,2,3,4] [zeroRegressor] 2 (by simp)⟩

/-- Claim C5, counterexample to the caller-supplied seed: the fold partition used
for every candidate is definitionally the fixed-seed-1 partition
`kfoldSplit 1`, while the seed argument is material — the seed-2 partition
of 4 samples into 2 folds differs — so no caller-supplied value influences
the shuffle (the seed `random_state=1` is hard-coded at line 414 and
`determine_best_model` has no seed parameter). -/
theorem kfold_seed_not_caller_supplied :
    candidate_folds zeroRegressor 2 4 = kfoldSplit 1 2 4 ∧
    kfoldSplit 2 2 4 ≠ kfoldSplit 1 2 4 :=
  ⟨rfl, by decide⟩

/-- Claim C5 (amended): the K-fold partition is produced by a deterministic
shuffle with the HARD-CODED seed 1 (not caller-supplied); within one
invocation every candidate model sees the identical partition, and the
partition is a function of the sample count and `num_folds` alone, so two
runs on the same data with the same `num_folds` produce identical fold
assignments (and identical per-fold metrics for a deterministic
estimator). -/
theorem kfold_partition_fixed_seed (models : List Regressor) (num_folds n : ℕ) :
    models.map (fun m => candidate_folds m num_folds n) =
      List.replicate models.length (kfoldSplit 1 num_folds n) ∧
    ∀ m₁ m₂ : Regressor, candidate_folds m₁ num_folds n = candidate_folds m₂ num_folds n := by
  constructor
  · induction models with
    | nil => rfl
    | cons m ms ih => simp only [List.map_cons, List.length_cons, List.replicate, ih]; rfl
  · intro _ _; rfl

/-- Claim C6, counterexample: with an invalid output directory and the
performance-table flag OFF, `determine_best_model` still attempts the
unconditional `dump` of the retrained model (line 473) and the call aborts
with the raised error — the in-memory result is NOT returned to the
caller. -/
theorem persistence_failure_aborts :
    determine_best_model_run false false [[1],[2]] [1,2] [zeroRegressor] 2 =
      .error "OSError: cannot save best model to out_path" := rfl

/-- Claim C6 (amended): the performance-table write is gated by the
`save_performances` flag, but the retrained best model is persisted
unconditionally to `out_path`; with a valid path the numeric result is
returned, while any persistence failure (invalid output directory) aborts
the call — through the table write when `save_performances` is set,
otherwise through the model dump — and the in-memory result is lost. -/
theorem persistence_gating (pathOk sp : Bool) (X : List (List ℚ)) (y : List ℚ)
    (models : List Regressor) (num_folds : ℕ) (hm : models ≠ []) :
    determine_best_model_run pathOk sp X y models num_folds =
      if pathOk then
        .ok ((determine_best_model_core X y models num_folds).1,
             (determine_best_model_core X y models num_folds).2.1)
      else
        .error (if sp then "OSError: cannot save performances table to out_path"
                else "OSError: cannot save best model to out_path") := by
  cases models with
  | nil => exact absurd rfl hm
  | cons m ms =>
    cases pathOk <;> cases sp <;>
      simp [determine_best_model_run, determine_best_model_core]

/-- Witness for the amended C6 theorem: a valid path with the table flag
off returns the in-memory result. -/
theorem persistence_gating_witness :
    (([zeroRegressor] : List Regressor) ≠ []) ∧
    (determine_best_model_run true false [[1],[2]] [1,2] [zeroRegressor] 2 =
      if true then
        .ok ((determine_best_model_core [[1],[2]] [1,2] [zeroRegressor] 2).1,
             (determine_best_model_core [[1],[2]] [1,2] [zeroRegressor] 2).2.1)
      else
        .error (if false then "OSError: cannot save performances table to out_path"
                else "OSError: cannot save best model to out_path")) :=
  ⟨by simp, persistence_gating true false [[1],[2]] [1,2] [zeroRegressor] 2 (by simp)⟩
